import Mathlib

/-!
Shallow embedding of `src/main.go` (a minimal key-value service with two
storage backends).  Go's mutable `map[string]string` is modelled as an
association list without duplicate keys (insert overwrites in place, as a
Go map assignment does).  The backing file of a `FileStorage` is modelled
abstractly: `encoding/json` is an external library, so its encoder/decoder
are represented by a `FileContent` type whose `jsonMap` constructor stands
for "a valid JSON object of string keys to string values", `empty` for a
zero-length file, and `invalid` for any other non-empty content.  File
system failures during `FileStorage.Set` (truncate / seek / encode) are
driven by an explicit fault oracle, since the Go code only observes
whether each syscall returned an error.
-/

/-- A Go `map[string]string`, as an association list with unique keys. -/
abbrev GoMap := List (String × String)

/-- Lookup `m[key]`: the value of the first (and only) entry whose key
matches, or `none` (Go: `value, ok = ms.m[key]` with `ok = false`). -/
def mapLookup (m : GoMap) (key : String) : Option String :=
  match m with
  | [] => none
  | (k, v) :: rest => if k = key then some v else mapLookup rest key

/-- Assignment `m[key] = value` on a Go map: overwrite the existing entry
if the key is present, otherwise add a new entry. -/
def mapSet (m : GoMap) (key value : String) : GoMap :=
  match m with
  | [] => [(key, value)]
  | (k, v) :: rest =>
      if k = key then (key, value) :: rest else (k, v) :: mapSet rest key value

/-- The literal error text produced by `MemStorage.Get` for an absent key
(`fmt.Errorf("err not found")` in the source). -/
def errNotFound : String := "err not found"

/-- `type MemStorage struct { m map[string]string }` -/
structure MemStorage where
  m : GoMap
deriving Repr, DecidableEq

/-- `func (ms *MemStorage) Get(key string) (value string, err error)`:
lookup in the map; on a miss the returned value is the string zero value
`""` and the error is `"err not found"`. -/
def MemStorage.Get (ms : MemStorage) (key : String) : String × Option String :=
  match mapLookup ms.m key with
  | some v => (v, none)
  | none => ("", some errNotFound)

/-- `func (ms *MemStorage) Set(key, value string) (err error)`: store the
pair and always return `nil`.  The mutated receiver is returned
explicitly. -/
def MemStorage.Set (ms : MemStorage) (key value : String) :
    MemStorage × Option String :=
  (⟨mapSet ms.m key value⟩, none)

/-- `func NewMemStorage() Storage`: a fresh empty map. -/
def NewMemStorage : MemStorage := ⟨[]⟩

/-- The contents of the backing file on disk.  `jsonMap m` is the JSON
serialization of the map `m` (what `json.NewEncoder(f).Encode(&m)`
writes); `empty` is a zero-length file; `invalid s` is any non-empty
content that is not a valid JSON object of string keys to string
values. -/
inductive FileContent where
  | empty : FileContent
  | jsonMap : GoMap → FileContent
  | invalid : String → FileContent
deriving Repr, DecidableEq

/-- `json.NewDecoder(file).Decode(&m)` combined with the source's
`err != io.EOF` check: an empty file decodes to the empty map (EOF is not
an error), a JSON object decodes to its map, anything else is a decode
error. -/
def decodeFile (fc : FileContent) : Except String GoMap :=
  match fc with
  | .empty => .ok []
  | .jsonMap m => .ok m
  | .invalid _ => .error "json decode error"

/-- `type FileStorage struct { ms *MemStorage; f *os.File }`.  The `f`
field carries the current contents of the backing file. -/
structure FileStorage where
  ms : MemStorage
  f : FileContent
deriving Repr, DecidableEq

/-- `func (fs *FileStorage) Get(key string)`: pure delegation to the
internal memory store; the file is not consulted. -/
def FileStorage.Get (fs : FileStorage) (key : String) : String × Option String :=
  fs.ms.Get key

/-- Fault oracle for one `FileStorage.Set` call: which file-system step,
if any, returns an error. -/
inductive SetFault where
  | ok : SetFault
  | atTruncate : SetFault
  | atSeek : SetFault
  | atEncode : SetFault
deriving Repr, DecidableEq

/-- `func (fs *FileStorage) Set(key, value string) (err error)`: update
the memory store (cannot fail), then truncate the file to zero, seek to
offset 0, and encode the whole map as JSON into the file.  Each failing
step aborts the remaining steps and returns a wrapped error naming the
step; the memory mutation has already happened in every case.  A truncate
failure leaves the file as it was; a seek or encode failure leaves it
truncated (empty). -/
def FileStorage.Set (fs : FileStorage) (key value : String) (fault : SetFault) :
    FileStorage × Option String :=
  match fs.ms.Set key value with
  | (ms1, some e) => (⟨ms1, fs.f⟩, some ("unable to add new key in memorystorage: " ++ e))
  | (ms1, none) =>
    match fault with
    | .atTruncate => (⟨ms1, fs.f⟩, some "unable to truncate file: disk error")
    | .atSeek => (⟨ms1, .empty⟩, some "unable to get the beginning of file: disk error")
    | .atEncode => (⟨ms1, .empty⟩, some "unable to encode data into the file: disk error")
    | .ok => (⟨ms1, .jsonMap (mapSet fs.ms.m key value)⟩, none)

/-- `func NewFileStorage(filename string) (Storage, error)`: open the
file (creating it empty if absent, modelled by `diskFile = none`), decode
its contents, and wrap the resulting map in a `MemStorage`.  A decode
error aborts construction. -/
def NewFileStorage (filename : String) (diskFile : Option FileContent) :
    Except String FileStorage :=
  let file := diskFile.getD .empty
  match decodeFile file with
  | .error e => .error ("unable to decode contents of file " ++ filename ++ ": " ++ e)
  | .ok m => .ok ⟨⟨m⟩, file⟩

/-- A client-visible operation on a store, for stating frame properties
about sequences of calls. -/
inductive Op where
  | get : String → Op
  | set : String → String → Op
deriving Repr, DecidableEq

/-- Run one operation on a `MemStorage`, returning the resulting store
and the call's `(value, err)` output (`Set` has no value output; `""` is
used). -/
def MemStorage.doOp (ms : MemStorage) (op : Op) :
    MemStorage × (String × Option String) :=
  match op with
  | .get k => (ms, ms.Get k)
  | .set k v =>
      match ms.Set k v with
      | (ms1, e) => (ms1, ("", e))

/-- Run a list of operations on a `MemStorage`, left to right. -/
def MemStorage.runOps (ms : MemStorage) (ops : List Op) : MemStorage :=
  match ops with
  | [] => ms
  | op :: rest => ((ms.doOp op).1).runOps rest

/-- Run one operation on a `FileStorage` under a fault oracle. -/
def FileStorage.doOp (fs : FileStorage) (op : Op) (fault : SetFault) :
    FileStorage × (String × Option String) :=
  match op with
  | .get k => (fs, fs.Get k)
  | .set k v =>
      match fs.Set k v fault with
      | (fs1, e) => (fs1, ("", e))

/-- Run a list of (operation, fault) pairs on a `FileStorage`. -/
def FileStorage.runOps (fs : FileStorage) (ops : List (Op × SetFault)) : FileStorage :=
  match ops with
  | [] => fs
  | (op, fault) :: rest => ((fs.doOp op fault).1).runOps rest

-- Basic lemmas about the map model.

theorem mapLookup_mapSet_self (m : GoMap) (k v : String) :
    mapLookup (mapSet m k v) k = some v := by
  induction m with
  | nil => simp [mapSet, mapLookup]
  | cons hd tl ih =>
      obtain ⟨k0, v0⟩ := hd
      by_cases h : k0 = k
      · simp [mapSet, h, mapLookup]
      · simp [mapSet, h, mapLookup, ih]

theorem mapLookup_mapSet_other (m : GoMap) (k v q : String) (hq : q ≠ k) :
    mapLookup (mapSet m k v) q = mapLookup m q := by
  have hk : k ≠ q := Ne.symm hq
  induction m with
  | nil => simp [mapSet, mapLookup, hk]
  | cons hd tl ih =>
      obtain ⟨k0, v0⟩ := hd
      by_cases h : k0 = k
      · subst h
        simp [mapSet, mapLookup, hk]
      · simp [mapSet, h, mapLookup, ih]

theorem fileSet_ms (fs : FileStorage) (k v : String) (fault : SetFault) :
    (fs.Set k v fault).1.ms = ⟨mapSet fs.ms.m k v⟩ := by
  cases fault <;> rfl

theorem get_congr (m1 m2 : GoMap) (k : String)
    (h : mapLookup m1 k = mapLookup m2 k) :
    MemStorage.Get ⟨m1⟩ k = MemStorage.Get ⟨m2⟩ k := by
  simp [MemStorage.Get, h]

/-- Whether an operation is a read. -/
def Op.isGet (op : Op) : Bool :=
  match op with
  | .get _ => true
  | .set _ _ => false

theorem memRunOps_gets (ms : MemStorage) (ops : List Op)
    (h : ∀ op ∈ ops, op.isGet = true) : ms.runOps ops = ms := by
  induction ops generalizing ms with
  | nil => rfl
  | cons op rest ih =>
      have htail : ∀ o ∈ rest, o.isGet = true :=
        fun o ho => h o (List.mem_cons_of_mem _ ho)
      cases op with
      | get q => exact ih ms htail
      | set k v =>
          have := h (Op.set k v) (List.mem_cons_self _ _)
          simp [Op.isGet] at this

theorem fileRunOps_gets (fs : FileStorage) (fops : List (Op × SetFault))
    (h : ∀ p ∈ fops, (p.1).isGet = true) : fs.runOps fops = fs := by
  induction fops generalizing fs with
  | nil => rfl
  | cons p rest ih =>
      obtain ⟨op, fault⟩ := p
      have htail : ∀ q ∈ rest, (q.1).isGet = true :=
        fun q hq => h q (List.mem_cons_of_mem _ hq)
      cases op with
      | get q => exact ih fs htail
      | set k v =>
          have := h (Op.set k v, fault) (List.mem_cons_self _ _)
          simp [Op.isGet] at this

/-- Which key a write operation targets; `Get` writes nothing. -/
def Op.writesKey (op : Op) (k : String) : Bool :=
  match op with
  | .get _ => false
  | .set k2 _ => k2 == k

theorem memRunOps_lookup_of_not_written (ms : MemStorage) (ops : List Op)
    (k : String) (hops : ∀ op ∈ ops, op.writesKey k = false)
    (hm : mapLookup ms.m k = none) :
    mapLookup (ms.runOps ops).m k = none := by
  induction ops generalizing ms with
  | nil => exact hm
  | cons op rest ih =>
      have htail : ∀ o ∈ rest, o.writesKey k = false :=
        fun o ho => hops o (List.mem_cons_of_mem _ ho)
      cases op with
      | get q => exact ih ms htail hm
      | set k2 v =>
          have hne : k2 ≠ k := by
            have := hops (Op.set k2 v) (List.mem_cons_self _ _)
            simpa [Op.writesKey] using this
          refine ih ⟨mapSet ms.m k2 v⟩ htail ?_
          rw [mapLookup_mapSet_other ms.m k2 v k (Ne.symm hne)]
          exact hm

theorem fileRunOps_lookup_of_not_written (fs : FileStorage)
    (fops : List (Op × SetFault)) (k : String)
    (hops : ∀ p ∈ fops, (p.1).writesKey k = false)
    (hm : mapLookup fs.ms.m k = none) :
    mapLookup (fs.runOps fops).ms.m k = none := by
  induction fops generalizing fs with
  | nil => exact hm
  | cons p rest ih =>
      obtain ⟨op, fault⟩ := p
      have htail : ∀ q ∈ rest, (q.1).writesKey k = false :=
        fun q hq => hops q (List.mem_cons_of_mem _ hq)
      cases op with
      | get q => exact ih fs htail hm
      | set k2 v =>
          have hne : k2 ≠ k := by
            have := hops (Op.set k2 v, fault) (List.mem_cons_self _ _)
            simpa [Op.writesKey] using this
          refine ih ((fs.doOp (Op.set k2 v) fault).1) htail ?_
          have hms : (fs.doOp (Op.set k2 v) fault).1.ms = ⟨mapSet fs.ms.m k2 v⟩ := by
            cases fault <;> rfl
          rw [hms]
          show mapLookup (mapSet fs.ms.m k2 v) k = none
          rw [mapLookup_mapSet_other fs.ms.m k2 v k (Ne.symm hne)]
          exact hm

/-- C1: for every FileStorage, key and value, if `Set` returns success,
the backing file's contents are exactly the JSON serialization of the
in-memory map at that moment, and decoding the file as JSON yields a map
equal to the store's full in-memory contents. -/
theorem C1_set_file_matches_memory (fs : FileStorage) (k v : String)
    (fault : SetFault) (h : (fs.Set k v fault).2 = none) :
    (fs.Set k v fault).1.f = FileContent.jsonMap ((fs.Set k v fault).1.ms.m) ∧
    decodeFile ((fs.Set k v fault).1.f) = Except.ok ((fs.Set k v fault).1.ms.m) := by
  cases fault with
  | ok => exact ⟨rfl, rfl⟩
  | atTruncate => simp [FileStorage.Set, MemStorage.Set] at h
  | atSeek => simp [FileStorage.Set, MemStorage.Set] at h
  | atEncode => simp [FileStorage.Set, MemStorage.Set] at h

/-- Witness for C1 at a concrete store, key and value. -/
theorem C1_set_file_matches_memory_witness :
    (FileStorage.Set ⟨⟨[]⟩, FileContent.empty⟩ "a" "1" SetFault.ok).1.f
      = FileContent.jsonMap ((FileStorage.Set ⟨⟨[]⟩, FileContent.empty⟩ "a" "1" SetFault.ok).1.ms.m) ∧
    decodeFile ((FileStorage.Set ⟨⟨[]⟩, FileContent.empty⟩ "a" "1" SetFault.ok).1.f)
      = Except.ok ((FileStorage.Set ⟨⟨[]⟩, FileContent.empty⟩ "a" "1" SetFault.ok).1.ms.m) :=
  C1_set_file_matches_memory ⟨⟨[]⟩, FileContent.empty⟩ "a" "1" SetFault.ok rfl

/-- C2: for both store kinds, a successful `Set k v` followed by `Get k`
returns `v` with success; in particular setting "x" to "1" then "2" and
reading "x" yields "2" (last-write-wins). -/
theorem C2_set_then_get (ms : MemStorage) (fs : FileStorage) (k v : String)
    (fault : SetFault) (hf : (fs.Set k v fault).2 = none) :
    (ms.Set k v).2 = none ∧
    ((ms.Set k v).1).Get k = (v, none) ∧
    ((fs.Set k v fault).1).Get k = (v, none) ∧
    (((ms.Set "x" "1").1.Set "x" "2").1).Get "x" = ("2", none) ∧
    ((((fs.Set "x" "1" SetFault.ok).1).Set "x" "2" SetFault.ok).1).Get "x" = ("2", none) := by
  refine ⟨rfl, ?_, ?_, ?_, ?_⟩
  · simp [MemStorage.Set, MemStorage.Get, mapLookup_mapSet_self]
  · simp [FileStorage.Get, fileSet_ms, MemStorage.Get, mapLookup_mapSet_self]
  · simp [MemStorage.Set, MemStorage.Get, mapLookup_mapSet_self]
  · simp [FileStorage.Get, fileSet_ms, MemStorage.Get, mapLookup_mapSet_self]

/-- Witness for C2 at a concrete store, key and value. -/
theorem C2_set_then_get_witness :
    (MemStorage.Set ⟨[]⟩ "k" "v").2 = none ∧
    ((MemStorage.Set ⟨[]⟩ "k" "v").1).Get "k" = ("v", none) ∧
    ((FileStorage.Set ⟨⟨[]⟩, FileContent.empty⟩ "k" "v" SetFault.ok).1).Get "k" = ("v", none) ∧
    (((MemStorage.Set ⟨[]⟩ "x" "1").1.Set "x" "2").1).Get "x" = ("2", none) ∧
    ((((FileStorage.Set ⟨⟨[]⟩, FileContent.empty⟩ "x" "1" SetFault.ok).1).Set "x" "2" SetFault.ok).1).Get "x"
      = ("2", none) :=
  C2_set_then_get ⟨[]⟩ ⟨⟨[]⟩, FileContent.empty⟩ "k" "v" SetFault.ok rfl

/-- C3: persistence round-trips across reopen: if a FileStorage is
constructed from a file, `Set k v` succeeds, and a new FileStorage is
constructed from the resulting backing file, construction succeeds and
`Get k` on the new store returns `v`. -/
theorem C3_persistence_across_reopen (fn : String) (disk : Option FileContent)
    (fs : FileStorage) (k v : String) (fault : SetFault)
    (hopen : NewFileStorage fn disk = Except.ok fs)
    (hset : (fs.Set k v fault).2 = none) :
    NewFileStorage fn (some ((fs.Set k v fault).1.f))
      = Except.ok ⟨⟨mapSet fs.ms.m k v⟩, FileContent.jsonMap (mapSet fs.ms.m k v)⟩ ∧
    ∀ fs2 : FileStorage,
      NewFileStorage fn (some ((fs.Set k v fault).1.f)) = Except.ok fs2 →
      fs2.Get k = (v, none) := by
  have hfault : fault = SetFault.ok := by
    cases fault with
    | ok => rfl
    | atTruncate => simp [FileStorage.Set, MemStorage.Set] at hset
    | atSeek => simp [FileStorage.Set, MemStorage.Set] at hset
    | atEncode => simp [FileStorage.Set, MemStorage.Set] at hset
  subst hfault
  refine ⟨rfl, ?_⟩
  intro fs2 h2
  simp only [FileStorage.Set, MemStorage.Set, NewFileStorage, decodeFile,
    Option.getD, Except.ok.injEq] at h2
  subst h2
  simp [FileStorage.Get, MemStorage.Get, mapLookup_mapSet_self]

/-- Witness for C3: create at an empty file, set ("k","v"), reopen. -/
theorem C3_persistence_across_reopen_witness :
    NewFileStorage "p" (some ((FileStorage.Set ⟨⟨[]⟩, FileContent.empty⟩ "k" "v" SetFault.ok).1.f))
      = Except.ok ⟨⟨mapSet ([] : GoMap) "k" "v"⟩, FileContent.jsonMap (mapSet ([] : GoMap) "k" "v")⟩ ∧
    ∀ fs2 : FileStorage,
      NewFileStorage "p" (some ((FileStorage.Set ⟨⟨[]⟩, FileContent.empty⟩ "k" "v" SetFault.ok).1.f))
        = Except.ok fs2 →
      fs2.Get "k" = ("v", none) :=
  C3_persistence_across_reopen "p" none ⟨⟨[]⟩, FileContent.empty⟩ "k" "v" SetFault.ok rfl rfl

/-- C4: for both store kinds, `Get` on a key never written by any
operation since fresh construction returns the NotFound error, not
success; and key absence is the only error condition of `Get`. -/
theorem C4_get_never_set (ops : List Op) (fops : List (Op × SetFault))
    (k : String)
    (h1 : ∀ op ∈ ops, op.writesKey k = false)
    (h2 : ∀ p ∈ fops, (p.1).writesKey k = false) :
    (NewMemStorage.runOps ops).Get k = ("", some errNotFound) ∧
    (FileStorage.runOps ⟨⟨[]⟩, FileContent.empty⟩ fops).Get k = ("", some errNotFound) ∧
    (∀ ms2 : MemStorage, ((ms2.Get k).2 ≠ none ↔ mapLookup ms2.m k = none)) ∧
    (∀ fs2 : FileStorage, ((fs2.Get k).2 ≠ none ↔ mapLookup fs2.ms.m k = none)) := by
  refine ⟨?_, ?_, ?_, ?_⟩
  · have hl := memRunOps_lookup_of_not_written NewMemStorage ops k h1 rfl
    simp [MemStorage.Get, hl]
  · have hl := fileRunOps_lookup_of_not_written ⟨⟨[]⟩, FileContent.empty⟩ fops k h2 rfl
    simp [FileStorage.Get, MemStorage.Get, hl]
  · intro ms2
    cases hq : mapLookup ms2.m k <;> simp [MemStorage.Get, hq]
  · intro fs2
    cases hq : mapLookup fs2.ms.m k <;> simp [FileStorage.Get, MemStorage.Get, hq]

/-- Witness for C4: one write to "a", then ask for "b". -/
theorem C4_get_never_set_witness :
    (NewMemStorage.runOps [Op.set "a" "1"]).Get "b" = ("", some errNotFound) ∧
    (FileStorage.runOps ⟨⟨[]⟩, FileContent.empty⟩ [(Op.set "a" "1", SetFault.ok)]).Get "b"
      = ("", some errNotFound) ∧
    (∀ ms2 : MemStorage, ((ms2.Get "b").2 ≠ none ↔ mapLookup ms2.m "b" = none)) ∧
    (∀ fs2 : FileStorage, ((fs2.Get "b").2 ≠ none ↔ mapLookup fs2.ms.m "b" = none)) :=
  C4_get_never_set [Op.set "a" "1"] [(Op.set "a" "1", SetFault.ok)] "b"
    (by decide) (by decide)

/-- C5: constructing a FileStorage from a file whose non-empty content is
not a valid JSON object of string keys to string values fails with a
decode error; no store is created. -/
theorem C5_invalid_json_rejected (fn s : String) :
    NewFileStorage fn (some (FileContent.invalid s))
      = Except.error ("unable to decode contents of file " ++ fn ++ ": " ++ "json decode error") ∧
    ∀ fs : FileStorage, NewFileStorage fn (some (FileContent.invalid s)) ≠ Except.ok fs := by
  refine ⟨rfl, ?_⟩
  intro fs h
  simp [NewFileStorage, decodeFile] at h

/-- C6: constructing a FileStorage from a missing or zero-length file
succeeds with an empty store (end-of-input is not an error), and
constructing from a file holding the JSON object with entries
a maps-to 1 and b maps-to 2 yields a store whose `Get` already returns
those values with no `Set` calls. -/
theorem C6_empty_and_prepopulated_construction (fn : String) :
    NewFileStorage fn none = Except.ok ⟨⟨[]⟩, FileContent.empty⟩ ∧
    NewFileStorage fn (some FileContent.empty) = Except.ok ⟨⟨[]⟩, FileContent.empty⟩ ∧
    decodeFile FileContent.empty = Except.ok [] ∧
    (∀ k, (FileStorage.mk ⟨[]⟩ FileContent.empty).Get k = ("", some errNotFound)) ∧
    NewFileStorage fn (some (FileContent.jsonMap [("a", "1"), ("b", "2")]))
      = Except.ok ⟨⟨[("a", "1"), ("b", "2")]⟩, FileContent.jsonMap [("a", "1"), ("b", "2")]⟩ ∧
    (FileStorage.mk ⟨[("a", "1"), ("b", "2")]⟩
        (FileContent.jsonMap [("a", "1"), ("b", "2")])).Get "a" = ("1", none) ∧
    (FileStorage.mk ⟨[("a", "1"), ("b", "2")]⟩
        (FileContent.jsonMap [("a", "1"), ("b", "2")])).Get "b" = ("2", none) := by
  refine ⟨rfl, rfl, rfl, fun k => rfl, rfl, by decide, by decide⟩

/-- C7: `FileStorage.Set` is not atomic under failure: whichever of the
truncate, seek or encode steps fails, the in-memory map has already been
updated (no rollback: a following `Get k` returns `v`), the error text
names the failing step, and the failing step aborts the remaining ones
(a truncate failure leaves the file untouched; a seek or encode failure
leaves it truncated, never re-encoded). -/
theorem C7_set_failure_not_atomic (fs : FileStorage) (k v : String) :
    fs.Set k v SetFault.atTruncate
      = (⟨⟨mapSet fs.ms.m k v⟩, fs.f⟩, some "unable to truncate file: disk error") ∧
    fs.Set k v SetFault.atSeek
      = (⟨⟨mapSet fs.ms.m k v⟩, FileContent.empty⟩,
          some "unable to get the beginning of file: disk error") ∧
    fs.Set k v SetFault.atEncode
      = (⟨⟨mapSet fs.ms.m k v⟩, FileContent.empty⟩,
          some "unable to encode data into the file: disk error") ∧
    (∀ fault : SetFault, (fs.Set k v fault).1.ms = ⟨mapSet fs.ms.m k v⟩) ∧
    (∀ fault : SetFault, ((fs.Set k v fault).1).Get k = (v, none)) := by
  refine ⟨rfl, rfl, rfl, fun fault => fileSet_ms fs k v fault, fun fault => ?_⟩
  simp [FileStorage.Get, fileSet_ms, MemStorage.Get, mapLookup_mapSet_self]

/-- C8: `FileStorage.Get` delegates entirely to the internal memory
store, and `Get` has no side effects for either kind: a single `Get`
returns the store unchanged, and any sequence of reads leaves the store
state (map and file) unchanged. -/
theorem C8_get_is_pure_delegation (fs : FileStorage) (ms : MemStorage)
    (k : String) (fault : SetFault) (ops : List Op)
    (fops : List (Op × SetFault))
    (hops : ∀ op ∈ ops, op.isGet = true)
    (hfops : ∀ p ∈ fops, (p.1).isGet = true) :
    fs.Get k = fs.ms.Get k ∧
    (ms.doOp (Op.get k)).1 = ms ∧
    (fs.doOp (Op.get k) fault).1 = fs ∧
    ms.runOps ops = ms ∧
    fs.runOps fops = fs :=
  ⟨rfl, rfl, rfl, memRunOps_gets ms ops hops, fileRunOps_gets fs fops hfops⟩

/-- Witness for C8 at a concrete store and read sequence. -/
theorem C8_get_is_pure_delegation_witness :
    FileStorage.Get ⟨⟨[("a", "1")]⟩, FileContent.jsonMap [("a", "1")]⟩ "a"
      = MemStorage.Get ⟨[("a", "1")]⟩ "a" ∧
    (MemStorage.doOp ⟨[("a", "1")]⟩ (Op.get "a")).1 = ⟨[("a", "1")]⟩ ∧
    (FileStorage.doOp ⟨⟨[("a", "1")]⟩, FileContent.jsonMap [("a", "1")]⟩
        (Op.get "a") SetFault.ok).1
      = ⟨⟨[("a", "1")]⟩, FileContent.jsonMap [("a", "1")]⟩ ∧
    MemStorage.runOps ⟨[("a", "1")]⟩ [Op.get "a", Op.get "b"] = ⟨[("a", "1")]⟩ ∧
    FileStorage.runOps ⟨⟨[("a", "1")]⟩, FileContent.jsonMap [("a", "1")]⟩
        [(Op.get "a", SetFault.ok), (Op.get "b", SetFault.atEncode)]
      = ⟨⟨[("a", "1")]⟩, FileContent.jsonMap [("a", "1")]⟩ :=
  C8_get_is_pure_delegation ⟨⟨[("a", "1")]⟩, FileContent.jsonMap [("a", "1")]⟩
    ⟨[("a", "1")]⟩ "a" SetFault.ok [Op.get "a", Op.get "b"]
    [(Op.get "a", SetFault.ok), (Op.get "b", SetFault.atEncode)]
    (by decide) (by decide)

/-- C9: a successful `Set k v` leaves every other key unchanged: for
distinct keys, `Get` on the other key returns the same result (same
value or same NotFound) after the `Set` as before it, for both kinds. -/
theorem C9_set_frames_other_keys (ms : MemStorage) (fs : FileStorage)
    (k k2 v : String) (fault : SetFault) (hne : k2 ≠ k)
    (hsucc : (fs.Set k v fault).2 = none) :
    ((ms.Set k v).1).Get k2 = ms.Get k2 ∧
    ((fs.Set k v fault).1).Get k2 = fs.Get k2 := by
  constructor
  · exact get_congr (mapSet ms.m k v) ms.m k2
      (mapLookup_mapSet_other ms.m k v k2 hne)
  · show ((fs.Set k v fault).1).ms.Get k2 = fs.ms.Get k2
    rw [fileSet_ms]
    exact get_congr (mapSet fs.ms.m k v) fs.ms.m k2
      (mapLookup_mapSet_other fs.ms.m k v k2 hne)

/-- Witness for C9: set "a", observe "b" unchanged (both present-key and
absent-key observations are preserved). -/
theorem C9_set_frames_other_keys_witness :
    ((MemStorage.Set ⟨[("b", "9")]⟩ "a" "1").1).Get "b"
      = MemStorage.Get ⟨[("b", "9")]⟩ "b" ∧
    ((FileStorage.Set ⟨⟨[("b", "9")]⟩, FileContent.jsonMap [("b", "9")]⟩
        "a" "1" SetFault.ok).1).Get "b"
      = FileStorage.Get ⟨⟨[("b", "9")]⟩, FileContent.jsonMap [("b", "9")]⟩ "b" :=
  C9_set_frames_other_keys ⟨[("b", "9")]⟩
    ⟨⟨[("b", "9")]⟩, FileContent.jsonMap [("b", "9")]⟩ "a" "b" "1" SetFault.ok
    (by decide) rfl

/-- C10: for both kinds, `Get` on an absent key returns the empty string
(the map lookup's zero value) together with an error whose text is
exactly "err not found". -/
theorem C10_absent_key_zero_value_and_text (ms : MemStorage)
    (fs : FileStorage) (k : String) (h1 : mapLookup ms.m k = none)
    (h2 : mapLookup fs.ms.m k = none) :
    ms.Get k = ("", some "err not found") ∧
    fs.Get k = ("", some "err not found") ∧
    errNotFound = "err not found" := by
  refine ⟨?_, ?_, rfl⟩
  · simp [MemStorage.Get, h1, errNotFound]
  · simp [FileStorage.Get, MemStorage.Get, h2, errNotFound]

/-- Witness for C10: ask a populated store and a fresh file store for a
key neither holds. -/
theorem C10_absent_key_zero_value_and_text_witness :
    MemStorage.Get ⟨[("a", "1")]⟩ "b" = ("", some "err not found") ∧
    FileStorage.Get ⟨⟨[]⟩, FileContent.empty⟩ "b" = ("", some "err not found") ∧
    errNotFound = "err not found" :=
  C10_absent_key_zero_value_and_text ⟨[("a", "1")]⟩ ⟨⟨[]⟩, FileContent.empty⟩
    "b" (by decide) (by decide)
